import Mathlib

/-!
Shallow embedding of `bst_inspire_authority_ids_synchronizer.py`
(CDS ↔ INSPIRE authority-ids synchronizer).

External collaborators (the search engine `get_fieldvalues` /
`perform_request_search`, the network, the filesystem, the task scheduler)
are modelled as explicit parameters; the functions of the module itself are
translated line by line from the Python source.
-/

namespace InspireSync

/-- A Python `dict` from string keys to string values, modelled as an
association list in which each key occurs at most once.  Lookup scans the
list; insertion (`dict[k] = v`) removes any existing binding of the key and
puts the new one in front, so lookup after insertion behaves exactly like a
Python dict. -/
abbrev Dict := List (String × String)

/-- `d[k]` of a Python dict: `some v` on a hit, `none` where Python raises
`KeyError`. -/
def dictFind : Dict → String → Option String
  | [], _ => none
  | (k', v) :: d, k => if k = k' then some v else dictFind d k

/-- `d[k] = v` of a Python dict (overwrite semantics). -/
def dictInsert (d : Dict) (k v : String) : Dict :=
  (k, v) :: d.filter (fun p => p.1 ≠ k)

/-! ### The MARC XML data model seen by `parse_inspire_xml`

A dump record is the list of its `datafield` child elements.  For each
datafield we keep its `tag` attribute, the texts of its `subfield[@code='9']`
children (used by the xpath test `subfield[@code='9' and text()='INSPIRE']`),
and the first `subfield[@code='a']` child as found by `datafield.find`:
`none` when there is no such subfield (so that `.text` raises
`AttributeError`), `some t` when it exists, where `t : Option String` is its
lxml `.text` (`none` for an empty element). -/

structure Datafield where
  tag : String
  sub9 : List String
  subA : Option (Option String)
  deriving DecidableEq

abbrev MarcRecord := List Datafield

/-- One iteration of the inner loop of `parse_inspire_xml` (lines 146-156):
the running pair is `(inspire_id, cern_id)`.  A datafield whose tag is not
`035` is skipped (the xpath selects `datafield[@tag='035']` only); a code-9
subfield equal to `INSPIRE` takes priority over `CERN` (the `elif`); a
missing code-a subfield raises `AttributeError`, which is passed over,
keeping the previous value. -/
def dfStep (ids : Option String × Option String) (df : Datafield) :
    Option String × Option String :=
  if df.tag = "035" then
    if "INSPIRE" ∈ df.sub9 then
      match df.subA with
      | some t => (t, ids.2)
      | none => ids
    else if "CERN" ∈ df.sub9 then
      match df.subA with
      | some t => (ids.1, t)
      | none => ids
    else ids
  else ids

/-- The inner loop of `parse_inspire_xml` over one record: the final
`(inspire_id, cern_id)` pair, both initialised to `None`. -/
def processRecord (r : MarcRecord) : Option String × Option String :=
  r.foldl dfStep (none, none)

/-- Python truthiness of a string-or-None value: `None` and `""` are falsy. -/
def pyTruthy : Option String → Bool
  | none => false
  | some s => s ≠ ""

/-- The entry a record contributes to `authority_ids`:
`if inspire_id and cern_id: authority_ids[cern_id] = inspire_id`
(lines 158-159).  `some (key, value)` is keyed by the CERN (internal) id. -/
def recordEntry (r : MarcRecord) : Option (String × String) :=
  match processRecord r with
  | (some i, some c) => if i ≠ "" ∧ c ≠ "" then some (c, i) else none
  | _ => none

/-- The outer loop of `parse_inspire_xml` (lines 142-159), threading the
`authority_ids` dict through the records. -/
def parseAux (d : Dict) : List MarcRecord → Dict
  | [] => d
  | r :: rs =>
    match recordEntry r with
    | some (k, v) => parseAux (dictInsert d k v) rs
    | none => parseAux d rs

/-- The possible shapes of `xml_content` as seen by `etree.fromstring`:
the empty string and malformed markup both raise `XMLSyntaxError`; a
well-formed document is the list of child records of its root element. -/
inductive RawContent
  | empty
  | malformed
  | wellFormed (records : List MarcRecord)
  deriving DecidableEq

/-- `parse_inspire_xml` (lines 97-161).  A `None` argument makes
`etree.fromstring` raise `ValueError`; both exception handlers
`return` (Python `None`, here `none`).  Otherwise the record loop builds the
dict starting from `{}`. -/
def parse_inspire_xml : Option RawContent → Option Dict
  | none => none
  | some .empty => none
  | some .malformed => none
  | some (.wellFormed rs) => some (parseAux [] rs)

/-! ### `get_ccid` -/

/-- Python `v.startswith(p)`, on the character-list representation of
strings (so that proofs can evaluate it). -/
def strStartsWith (v p : String) : Bool :=
  p.data.isPrefixOf v.data

/-- The third component of Python `v.partition(p)` in the case where `v`
starts with `p`: the text after the first occurrence of the separator,
i.e. `v` with the leading `p` removed. -/
def strDropLen (v p : String) : String :=
  String.mk (v.data.drop p.data.length)

/-- The loop of `get_ccid` (lines 196-204) over the `035__a` field values,
with `cern_id` as accumulator.  `break` leaves the loop and the function
returns the accumulator as it stands; a value starting with
`AUTHOR|(SzGeCERN)` overwrites the accumulator with
`control_number.partition("AUTHOR|(SzGeCERN)")[2]`, the text after the
marker. -/
def ccidLoop : Option String → List String → Option String
  | acc, [] => acc
  | acc, v :: vs =>
    if strStartsWith v "AUTHOR|(INSPIRE)" then acc
    else if strStartsWith v "AUTHOR|(SzGeCERN)" then
      ccidLoop (some (strDropLen v "AUTHOR|(SzGeCERN)")) vs
    else ccidLoop acc vs

/-- `get_ccid`, as a function of the record's `035__a` field values (the
external call `get_fieldvalues(record_id, "035__a")` supplies the list). -/
def get_ccid (values : List String) : Option String :=
  ccidLoop none values

/-! ### `synchronize` -/

/-- `"CERN-{0}".format(cern_id)` (line 246): Python's `str.format` renders
the value `None` as the four letters `None`. -/
def formatPy : Option String → String
  | none => "None"
  | some s => s

/-- The dict key `synchronize` looks up for one record id; `fields` models
the external store `get_fieldvalues(record_id, "035__a")`. -/
def lookupKey (fields : Nat → List String) (record_id : Nat) : String :=
  "CERN-" ++ formatPy (get_ccid (fields record_id))

/-- The reconciled updates of `synchronize` (lines 240-251): one
`(record id, inspire id)` pair per loop iteration whose dict lookup does not
raise `KeyError`, in input order. -/
def reconcile (fields : Nat → List String) (record_ids : List Nat)
    (authority_ids : Dict) : List (Nat × String) :=
  record_ids.filterMap (fun rid =>
    (dictFind authority_ids (lookupKey fields rid)).map (fun i => (rid, i)))

/-- `record.format(record_id, inspire_id)` (lines 232-237): the serialized
update fragment for one reconciled record. -/
def fragment (record_id : Nat) (inspire_id : String) : String :=
  "<record>" ++
  "<controlfield tag=\"001\">" ++ toString record_id ++ "</controlfield>" ++
  "<datafield tag=\"035\" ind1=\" \" ind2=\" \">" ++
  "<subfield code=\"a\">AUTHOR|(INSPIRE)" ++ inspire_id ++ "</subfield>" ++
  "</datafield>" ++
  "</record>"

/-- What one call of `synchronize` did: the reconciled updates, the output
string accumulated by `output +=`, whether the payload file was written, and
whether `task_low_level_submission` was called. -/
structure SyncResult where
  updates : List (Nat × String)
  output : String
  wrote : Bool
  submitted : Bool
  deriving DecidableEq

/-- `synchronize` (lines 206-278).  `writeOk` models whether
`open(dest_xml, "w")` / `f.write` succeeds; on `EnvironmentError` the
submission call inside the same `try` block is never reached.  An empty
output string is falsy (`if output:`), so nothing is written or submitted. -/
def synchronize (fields : Nat → List String) (record_ids : List Nat)
    (authority_ids : Dict) (writeOk : Bool) : SyncResult :=
  let updates := reconcile fields record_ids authority_ids
  let output := updates.foldl (fun acc u => acc ++ fragment u.1 u.2) ""
  if output ≠ "" then
    if writeOk then ⟨updates, output, true, true⟩
    else ⟨updates, output, false, false⟩
  else ⟨updates, output, false, false⟩

/-! ### `get_inspire_dump` -/

/-- The outside world of one `get_inspire_dump` call: whether
`urllib.urlretrieve` succeeds, the decompressed content of the fetched file
(`none` when `gzip.open`/`read` raises `IOError`), and whether `os.remove`
succeeds. -/
structure FetchWorld where
  transportOk : Bool
  readResult : Option RawContent
  removeOk : Bool
  deriving DecidableEq

/-- What one `get_inspire_dump` call did: the returned content, whether the
`os.remove(dest_gz_tmp)` statement was reached, and whether it succeeded. -/
structure FetchOutcome where
  result : Option RawContent
  removeAttempted : Bool
  removed : Bool
  deriving DecidableEq

/-- `get_inspire_dump` (lines 47-94).  On `urlretrieve` failure the function
returns at line 73, before the removal block; otherwise the read is
attempted, then the removal, and a removal failure only prints a message. -/
def get_inspire_dump (w : FetchWorld) : FetchOutcome :=
  if w.transportOk then
    { result := w.readResult, removeAttempted := true, removed := w.removeOk }
  else
    { result := none, removeAttempted := false, removed := false }

/-! ### The orchestrator -/

/-- Everything external a full run depends on: the fetch world, the record
ids returned by `perform_request_search(cc="CERN People")`, the field values
of each record, and whether the payload write succeeds. -/
structure RunEnv where
  fetch : FetchWorld
  record_ids : List Nat
  fields : Nat → List String
  writeOk : Bool

/-- Observable outcome of one full run: the reconciled update sequence
(`none` when `synchronize` was never called) and the content of the
destination payload file afterwards. -/
structure RunResult where
  updates : Option (List (Nat × String))
  destFile : Option String
  deriving DecidableEq

/-- `bst_inspire_authority_ids_synchronizer` (lines 281-301), threading the
previous content of the destination file.  `if authority_ids:` is true only
for a non-`None`, non-empty dict; `if record_ids:` only for a non-empty
list.  The payload is written with mode `"w"`, replacing any previous file
content. -/
def bst_inspire_authority_ids_synchronizer (env : RunEnv)
    (destFile : Option String) : RunResult :=
  match parse_inspire_xml (get_inspire_dump env.fetch).result with
  | some d =>
    if d ≠ [] then
      if env.record_ids ≠ [] then
        let r := synchronize env.fields env.record_ids d env.writeOk
        { updates := some r.updates,
          destFile := if r.wrote then some r.output else destFile }
      else { updates := none, destFile := destFile }
    else { updates := none, destFile := destFile }
  | none => { updates := none, destFile := destFile }

/-- Reference characterization (for comparison with `parseAux`): the value
of the last entry of `es` carrying key `k`, later entries taking precedence
over earlier ones. -/
def lastVal (es : List (String × String)) (k : String) : Option String :=
  match es with
  | [] => none
  | e :: es' =>
    match lastVal es' k with
    | some v => some v
    | none => if e.1 = k then some e.2 else none

/-! ### Helper lemmas -/

theorem dictFind_filter_ne (d : Dict) (k k' : String) (h : k' ≠ k) :
    dictFind (d.filter (fun p => p.1 ≠ k)) k' = dictFind d k' := by
  induction d with
  | nil => rfl
  | cons e d ih =>
    obtain ⟨a, b⟩ := e
    by_cases hk : a = k
    · rw [List.filter_cons_of_neg (by simp [hk]), ih, dictFind,
        if_neg (fun hh => h (hh.trans hk))]
    · rw [List.filter_cons_of_pos (by simp [hk])]
      simp only [dictFind]
      rw [ih]

theorem dictFind_dictInsert (d : Dict) (k v k' : String) :
    dictFind (dictInsert d k v) k' = if k' = k then some v else dictFind d k' := by
  unfold dictInsert
  simp only [dictFind]
  by_cases h : k' = k
  · rw [if_pos h, if_pos h]
  · rw [if_neg h, if_neg h]
    exact dictFind_filter_ne d k k' h

theorem mem_dictInsert {d : Dict} {k₀ v₀ k v : String}
    (h : (k, v) ∈ dictInsert d k₀ v₀) : (k = k₀ ∧ v = v₀) ∨ (k, v) ∈ d := by
  rcases List.mem_cons.mp h with h' | h'
  · left
    exact ⟨congrArg Prod.fst h', congrArg Prod.snd h'⟩
  · right
    exact List.mem_of_mem_filter h'

theorem dictInsert_pairwiseKeys {d : Dict} {k v : String}
    (h : d.Pairwise (fun p q => p.1 ≠ q.1)) :
    (dictInsert d k v).Pairwise (fun p q => p.1 ≠ q.1) := by
  refine List.Pairwise.cons ?_ (List.Pairwise.filter _ h)
  intro q hq
  have hq' : q.1 ≠ k := by simpa using List.of_mem_filter hq
  exact Ne.symm hq'

theorem recordEntry_eq_some_iff (r : MarcRecord) (k v : String) :
    recordEntry r = some (k, v) ↔
      (processRecord r).1 = some v ∧ (processRecord r).2 = some k ∧
        v ≠ "" ∧ k ≠ "" := by
  unfold recordEntry
  rcases hp : processRecord r with ⟨i, c⟩
  dsimp only
  cases i with
  | none => cases c <;> simp
  | some si =>
    cases c with
    | none => simp
    | some sc =>
      show (if si ≠ "" ∧ sc ≠ "" then some (sc, si) else none) = some (k, v) ↔ _
      split_ifs with hc
      · simp only [Option.some.injEq, Prod.mk.injEq]
        constructor
        · rintro ⟨rfl, rfl⟩
          exact ⟨rfl, rfl, hc.1, hc.2⟩
        · rintro ⟨rfl, rfl, -, -⟩
          exact ⟨rfl, rfl⟩
      · simp only [reduceCtorEq, false_iff, Option.some.injEq]
        rintro ⟨rfl, rfl, hv, hk⟩
        exact hc ⟨hv, hk⟩

theorem lastVal_eq_none_iff (es : List (String × String)) (k : String) :
    lastVal es k = none ↔ ∀ e ∈ es, e.1 ≠ k := by
  induction es with
  | nil => simp [lastVal]
  | cons e es ih =>
    rw [lastVal]
    cases h : lastVal es k with
    | some v =>
      simp only [reduceCtorEq, false_iff]
      intro hall
      have hnone : lastVal es k = none :=
        ih.mpr fun e' he' => hall e' (List.mem_cons_of_mem _ he')
      rw [h] at hnone
      exact Option.noConfusion hnone
    | none =>
      have hes : ∀ e' ∈ es, e'.1 ≠ k := ih.mp h
      by_cases hk : e.1 = k
      · simp [hk, List.forall_mem_cons]
      · rw [if_neg hk]
        simp only [List.forall_mem_cons]
        exact iff_of_true trivial ⟨hk, hes⟩

theorem parseAux_find (rs : List MarcRecord) :
    ∀ (d : Dict) (k : String),
      dictFind (parseAux d rs) k =
        match lastVal (rs.filterMap recordEntry) k with
        | some v => some v
        | none => dictFind d k := by
  induction rs with
  | nil =>
    intro d k
    simp [parseAux, lastVal]
  | cons r rs ih =>
    intro d k
    cases hre : recordEntry r with
    | none =>
      simp only [parseAux, hre, List.filterMap_cons]
      exact ih d k
    | some e =>
      obtain ⟨k₀, v₀⟩ := e
      simp only [parseAux, hre, List.filterMap_cons]
      rw [ih (dictInsert d k₀ v₀) k, lastVal]
      cases hlv : lastVal (rs.filterMap recordEntry) k with
      | some v => rfl
      | none =>
        rw [dictFind_dictInsert]
        by_cases hk : k = k₀
        · rw [if_pos hk, if_pos (show (k₀, v₀).1 = k from hk.symm)]
        · rw [if_neg hk, if_neg (show ¬ (k₀, v₀).1 = k from fun hh => hk hh.symm)]

theorem parseAux_mem (rs : List MarcRecord) :
    ∀ (d : Dict) (k v : String), (k, v) ∈ parseAux d rs →
      (k, v) ∈ d ∨ ∃ r ∈ rs, recordEntry r = some (k, v) := by
  induction rs with
  | nil =>
    intro d k v h
    exact Or.inl h
  | cons r rs ih =>
    intro d k v h
    cases hre : recordEntry r with
    | none =>
      rw [parseAux, hre] at h
      rcases ih d k v h with h' | ⟨r', hr', he'⟩
      · exact Or.inl h'
      · exact Or.inr ⟨r', List.mem_cons_of_mem _ hr', he'⟩
    | some e =>
      obtain ⟨k₀, v₀⟩ := e
      rw [parseAux, hre] at h
      rcases ih _ k v h with h' | ⟨r', hr', he'⟩
      · rcases mem_dictInsert h' with ⟨rfl, rfl⟩ | h''
        · exact Or.inr ⟨r, List.mem_cons_self _ _, hre⟩
        · exact Or.inl h''
      · exact Or.inr ⟨r', List.mem_cons_of_mem _ hr', he'⟩

theorem parseAux_pairwiseKeys (rs : List MarcRecord) :
    ∀ (d : Dict), d.Pairwise (fun p q => p.1 ≠ q.1) →
      (parseAux d rs).Pairwise (fun p q => p.1 ≠ q.1) := by
  induction rs with
  | nil =>
    intro d h
    exact h
  | cons r rs ih =>
    intro d h
    cases hre : recordEntry r with
    | none =>
      rw [parseAux, hre]
      exact ih d h
    | some e =>
      obtain ⟨k₀, v₀⟩ := e
      rw [parseAux, hre]
      exact ih _ (dictInsert_pairwiseKeys h)

theorem parseAux_of_no_entries (rs : List MarcRecord) :
    ∀ (d : Dict), (∀ r ∈ rs, recordEntry r = none) → parseAux d rs = d := by
  induction rs with
  | nil =>
    intro d _
    rfl
  | cons r rs ih =>
    intro d h
    rw [parseAux, h r (List.mem_cons_self _ _)]
    exact ih d fun r' hr' => h r' (List.mem_cons_of_mem _ hr')

theorem dictFind_exists_iff (d : Dict) (k : String) :
    (∃ v, (k, v) ∈ d) ↔ dictFind d k ≠ none := by
  induction d with
  | nil => simp [dictFind]
  | cons e d ih =>
    obtain ⟨a, b⟩ := e
    by_cases hk : k = a
    · subst hk
      constructor
      · intro _
        simp [dictFind]
      · intro _
        exact ⟨b, by simp⟩
    · rw [dictFind, if_neg hk, ← ih]
      constructor
      · rintro ⟨v, hv⟩
        rcases List.mem_cons.mp hv with h' | h'
        · exact absurd (congrArg Prod.fst h') hk
        · exact ⟨v, h'⟩
      · rintro ⟨v, hv⟩
        exact ⟨v, List.mem_cons_of_mem _ hv⟩

theorem synchronize_updates (fields : Nat → List String) (record_ids : List Nat)
    (authority_ids : Dict) (writeOk : Bool) :
    (synchronize fields record_ids authority_ids writeOk).updates =
      reconcile fields record_ids authority_ids := by
  simp only [synchronize]
  split
  · split <;> rfl
  · rfl

theorem reconcile_fst_sublist (fields : Nat → List String) (m : Dict) :
    ∀ record_ids : List Nat,
      ((reconcile fields record_ids m).map Prod.fst).Sublist record_ids := by
  intro ids
  induction ids with
  | nil => simp [reconcile]
  | cons rid ids ih =>
    rw [reconcile, List.filterMap_cons]
    cases h : dictFind m (lookupKey fields rid) with
    | none => exact List.Sublist.cons rid ih
    | some i => exact List.Sublist.cons₂ rid ih

theorem lookupKey_of_ccid_none {fields : Nat → List String} {rid : Nat}
    (h : get_ccid (fields rid) = none) : lookupKey fields rid = "CERN-None" := by
  rw [lookupKey, h]
  rfl

theorem parse_find_eq_lastVal (rs : List MarcRecord) (k : String) :
    dictFind (parseAux [] rs) k = lastVal (rs.filterMap recordEntry) k := by
  rw [parseAux_find rs [] k]
  cases lastVal (rs.filterMap recordEntry) k <;> rfl

theorem processRecord_append_inspire (dfs : MarcRecord) (df : Datafield)
    (t : Option String) (h1 : df.tag = "035") (h2 : "INSPIRE" ∈ df.sub9)
    (h3 : df.subA = some t) : (processRecord (dfs ++ [df])).1 = t := by
  rw [processRecord, List.foldl_append]
  show (dfStep (processRecord dfs) df).1 = t
  simp [dfStep, h1, h2, h3]

theorem processRecord_append_cern (dfs : MarcRecord) (df : Datafield)
    (t : Option String) (h1 : df.tag = "035") (h2 : "INSPIRE" ∉ df.sub9)
    (h2' : "CERN" ∈ df.sub9) (h3 : df.subA = some t) :
    (processRecord (dfs ++ [df])).2 = t := by
  rw [processRecord, List.foldl_append]
  show (dfStep (processRecord dfs) df).2 = t
  simp [dfStep, h1, h2, h2', h3]

theorem reconcile_not_mem_of_ccid_none {fields : Nat → List String} {m : Dict}
    (h : dictFind m "CERN-None" = none) (ids : List Nat) (rid : Nat)
    (hrid : get_ccid (fields rid) = none) :
    rid ∉ (reconcile fields ids m).map Prod.fst := by
  induction ids with
  | nil => simp [reconcile]
  | cons a ids ih =>
    rw [reconcile, List.filterMap_cons]
    cases hd : dictFind m (lookupKey fields a) with
    | none => exact ih
    | some i =>
      simp only [Option.map_some', List.map_cons]
      intro hmem
      rcases List.mem_cons.mp hmem with h1 | h1
      · have hkey : lookupKey fields a = "CERN-None" := by
          rw [show a = rid from h1.symm]
          exact lookupKey_of_ccid_none hrid
        rw [hkey, h] at hd
        exact Option.noConfusion hd
      · exact ih h1

theorem reconcile_length_le {fields : Nat → List String} {m : Dict}
    (h : dictFind m "CERN-None" = none) (ids : List Nat) :
    (reconcile fields ids m).length ≤
      ids.countP (fun rid => (get_ccid (fields rid)).isSome) := by
  induction ids with
  | nil => simp [reconcile]
  | cons a ids ih =>
    rw [reconcile, List.filterMap_cons, List.countP_cons]
    cases hc : get_ccid (fields a) with
    | none =>
      rw [lookupKey_of_ccid_none hc, h]
      simpa [hc] using ih
    | some s =>
      cases hd : dictFind m (lookupKey fields a) with
      | none =>
        simp only [Option.map_none']
        calc (reconcile fields ids m).length
            ≤ ids.countP (fun rid => (get_ccid (fields rid)).isSome) := ih
          _ ≤ _ := by simp [hc]
      | some i =>
        simp only [Option.map_some', List.length_cons, hc]
        simpa [hc] using Nat.succ_le_succ ih

/-! ### Claim theorems -/

/-- Claim C1 (code bug witness): for the field-value list of the `get_ccid`
docstring's Example 2 — an internal-id marker value followed by an
external-id marker value — the docstring and `test_get_ccid_with_inspire_id`
say the result is `None`, and the claim says the candidate is discarded;
the code's `break` however only stops the scan, so the function returns the
internal key captured before the external marker was seen. -/
theorem claim1_get_ccid_keeps_earlier_internal_key :
    get_ccid ["AUTHOR|(SzGeCERN)646446", "AUTHOR|(INSPIRE)INSPIRE-00198527"] =
      some "646446" := by
  decide

/-- Claim C2 counterexample: a candidate whose extracted key is absent can
still contribute a fragment, because `"CERN-{0}".format(None)` is the
string `CERN-None`, which an adversarial mapping can contain.  Candidate 1
has no `035__a` values, so `get_ccid` returns `none`, yet `synchronize`
emits a fragment for it; the number of fragments (1) then exceeds the
number of candidates with a present key (0). -/
theorem claim2_counterexample_none_key :
    get_ccid ((fun _ : Nat => ([] : List String)) 1) = none ∧
    (synchronize (fun _ : Nat => ([] : List String)) [1]
        [("CERN-None", "INSPIRE-00000001")] true).updates =
      [(1, "INSPIRE-00000001")] := by
  exact ⟨rfl, by decide⟩

/-- Claim C2 as amended: provided the mapping has no entry keyed
`"CERN-None"`, a candidate whose extracted key is absent never contributes
a fragment, and the number of emitted fragments is at most the number of
candidates with a present key. -/
theorem claim2_amended_keyless_dropped :
    ∀ (fields : Nat → List String) (record_ids : List Nat) (m : Dict)
      (writeOk : Bool),
      dictFind m "CERN-None" = none →
      (∀ rid, get_ccid (fields rid) = none →
        rid ∉ ((synchronize fields record_ids m writeOk).updates.map Prod.fst)) ∧
      (synchronize fields record_ids m writeOk).updates.length ≤
        record_ids.countP (fun rid => (get_ccid (fields rid)).isSome) := by
  intro fields ids m wk h
  rw [synchronize_updates]
  exact ⟨fun rid hrid => reconcile_not_mem_of_ccid_none h ids rid hrid,
    reconcile_length_le h ids⟩

/-- Witness for the amended claim C2 at a concrete input. -/
theorem claim2_amended_witness :
    (1 ∉ ((synchronize (fun _ : Nat => ([] : List String)) [1] [] true).updates.map
      Prod.fst)) ∧
    (synchronize (fun _ : Nat => ([] : List String)) [1] [] true).updates.length ≤
      [1].countP
        (fun rid => (get_ccid ((fun _ : Nat => ([] : List String)) rid)).isSome) := by
  exact ⟨(claim2_amended_keyless_dropped (fun _ => []) [1] [] true rfl).1 1 rfl,
    (claim2_amended_keyless_dropped (fun _ => []) [1] [] true rfl).2⟩

/-- Claim C3 counterexample: on the transport-failure exit path
(`urlretrieve` raises `IOError`), `get_inspire_dump` returns at once and
the `os.remove` statement is never reached, so no deletion of
`dest_gz_tmp` is attempted on that path. -/
theorem claim3_counterexample_transport_failure :
    (get_inspire_dump ⟨false, some (RawContent.wellFormed []), true⟩).removeAttempted =
      false := rfl

/-- Claim C3 as amended: on the decompression-failure and success exit
paths (i.e. whenever the transport succeeded) a deletion of `dest_gz_tmp`
is attempted before the function returns, and whether the deletion succeeds
never changes the returned value; on the transport-failure path no deletion
is attempted. -/
theorem claim3_amended_cleanup :
    ∀ (w : FetchWorld), w.transportOk = true →
      (get_inspire_dump w).removeAttempted = true ∧
      ∀ b, (get_inspire_dump { w with removeOk := b }).result =
        (get_inspire_dump w).result := by
  intro w h
  constructor
  · simp [get_inspire_dump, h]
  · intro b
    simp [get_inspire_dump, h]

/-- Witness for the amended claim C3 at a concrete input. -/
theorem claim3_amended_witness :
    (get_inspire_dump ⟨true, none, false⟩).removeAttempted = true ∧
    (get_inspire_dump ⟨true, none, false⟩).result =
      (get_inspire_dump ⟨true, none, true⟩).result := by
  exact ⟨(claim3_amended_cleanup ⟨true, none, false⟩ rfl).1,
    (claim3_amended_cleanup ⟨true, none, true⟩ rfl).2 false⟩

/-- Claim C4: for a well-formed dump, the mapping built by
`parse_inspire_xml` has at most one entry per key; its value at a key `k` is
the entry of the last record (in document order) contributing key `k`; a key
is present exactly when some record contributes it; a record contributes an
entry, keyed by its CERN (internal) id with the INSPIRE id as value, exactly
when both ids were captured non-empty; and within a record the last
035-datafield of a namespace that carries a code-a subfield determines the
captured value (last write wins at the field level). -/
theorem claim4_parse_last_write_wins :
    (∀ rs m, parse_inspire_xml (some (RawContent.wellFormed rs)) = some m →
      (∀ k, dictFind m k = lastVal (rs.filterMap recordEntry) k) ∧
      m.Pairwise (fun p q => p.1 ≠ q.1) ∧
      (∀ k, (∃ v, (k, v) ∈ m) ↔ ∃ e ∈ rs.filterMap recordEntry, e.1 = k)) ∧
    (∀ r k v, recordEntry r = some (k, v) ↔
      (processRecord r).1 = some v ∧ (processRecord r).2 = some k ∧
        v ≠ "" ∧ k ≠ "") ∧
    (∀ dfs df t, df.tag = "035" → "INSPIRE" ∈ df.sub9 → df.subA = some t →
      (processRecord (dfs ++ [df])).1 = t) ∧
    (∀ dfs df t, df.tag = "035" → "INSPIRE" ∉ df.sub9 → "CERN" ∈ df.sub9 →
      df.subA = some t → (processRecord (dfs ++ [df])).2 = t) := by
  refine ⟨?_, recordEntry_eq_some_iff, processRecord_append_inspire,
    processRecord_append_cern⟩
  intro rs m hm
  injection hm with hm
  subst hm
  refine ⟨fun k => parse_find_eq_lastVal rs k,
    parseAux_pairwiseKeys rs [] List.Pairwise.nil, fun k => ?_⟩
  rw [dictFind_exists_iff, parse_find_eq_lastVal]
  constructor
  · intro hne
    by_contra hex
    push_neg at hex
    exact hne ((lastVal_eq_none_iff (rs.filterMap recordEntry) k).mpr hex)
  · rintro ⟨e, he, hek⟩ hnone
    exact absurd hek
      ((lastVal_eq_none_iff (rs.filterMap recordEntry) k).mp hnone e he)

/-- Witness for claim C4 at concrete inputs. -/
theorem claim4_witness :
    dictFind [("CERN-389900", "INSPIRE-00146525")] "CERN-389900" =
      lastVal ([[Datafield.mk "035" ["CERN"] (some (some "CERN-389900")),
        Datafield.mk "035" ["INSPIRE"] (some (some "INSPIRE-00146525"))]].filterMap
          recordEntry) "CERN-389900" ∧
    (processRecord ([Datafield.mk "035" ["INSPIRE"] (some (some "INSPIRE-1"))] ++
      [Datafield.mk "035" ["INSPIRE"] (some (some "INSPIRE-2"))])).1 =
        some "INSPIRE-2" := by
  exact ⟨(claim4_parse_last_write_wins.1 _ _ (by decide)).1 "CERN-389900",
    claim4_parse_last_write_wins.2.2.1 _ _ _ rfl (by decide) rfl⟩

/-- Claim C5: `parse_inspire_xml` maps a `None`, empty or malformed input to
`None` (the exceptions are caught at the function boundary), while a
well-formed input with zero qualifying records yields the empty mapping,
which is distinct from `None`. -/
theorem claim5_parse_error_handling :
    parse_inspire_xml none = none ∧
    parse_inspire_xml (some RawContent.empty) = none ∧
    parse_inspire_xml (some RawContent.malformed) = none ∧
    ∀ rs, (∀ r ∈ rs, recordEntry r = none) →
      parse_inspire_xml (some (RawContent.wellFormed rs)) = some ([] : Dict) ∧
      parse_inspire_xml (some (RawContent.wellFormed rs)) ≠ none := by
  refine ⟨rfl, rfl, rfl, fun rs h => ?_⟩
  have hz : parseAux [] rs = [] := parseAux_of_no_entries rs [] h
  constructor
  · show some (parseAux [] rs) = some []
    rw [hz]
  · show some (parseAux [] rs) ≠ none
    simp

/-- Witness for claim C5 at a concrete input (a single record with no
qualifying fields). -/
theorem claim5_witness :
    parse_inspire_xml (some (RawContent.wellFormed [[]])) = some ([] : Dict) ∧
    parse_inspire_xml (some (RawContent.wellFormed [[]])) ≠ none :=
  claim5_parse_error_handling.2.2.2 [[]] (by decide)

/-- Claim C6: when a value starting with the external-id marker
`AUTHOR|(INSPIRE)` occurs in the field-value list before any value starting
with the internal-id marker `AUTHOR|(SzGeCERN)`, `get_ccid` returns `none`:
the scan breaks at the external marker while the accumulator is still
`None`. -/
theorem claim6_external_marker_first_disqualifies :
    ∀ (pre : List String) (v : String) (post : List String),
      strStartsWith v "AUTHOR|(INSPIRE)" = true →
      (∀ u ∈ pre, strStartsWith u "AUTHOR|(SzGeCERN)" = false) →
      get_ccid (pre ++ v :: post) = none := by
  intro pre v post hv
  induction pre with
  | nil =>
    intro _
    show ccidLoop none (v :: post) = none
    rw [ccidLoop, if_pos hv]
  | cons u pre ih =>
    intro hpre
    show ccidLoop none (u :: (pre ++ v :: post)) = none
    rw [ccidLoop]
    by_cases hu : strStartsWith u "AUTHOR|(INSPIRE)" = true
    · rw [if_pos hu]
    · rw [if_neg hu, if_neg (by simp [hpre u (List.mem_cons_self u pre)])]
      exact ih fun u' hu' => hpre u' (List.mem_cons_of_mem _ hu')

/-- Witness for claim C6 at a concrete input. -/
theorem claim6_witness :
    get_ccid (["foo"] ++ "AUTHOR|(INSPIRE)INSPIRE-00198527" ::
      ["AUTHOR|(SzGeCERN)646446"]) = none := by
  exact claim6_external_marker_first_disqualifies
    ["foo"] "AUTHOR|(INSPIRE)INSPIRE-00198527" ["AUTHOR|(SzGeCERN)646446"]
    (by decide) (by decide)

/-- Claim C7: the record ids of the fragments built by `synchronize` form a
sublist of the input candidate list (so every fragment's id comes from the
input and fragments keep the input's relative order), and when the input
ids are distinct each id contributes at most one fragment. -/
theorem claim7_reconcile_order_and_membership :
    ∀ (fields : Nat → List String) (record_ids : List Nat) (m : Dict)
      (writeOk : Bool),
      (((synchronize fields record_ids m writeOk).updates.map
        Prod.fst).Sublist record_ids) ∧
      (record_ids.Nodup → ∀ rid,
        ((synchronize fields record_ids m writeOk).updates.map
          Prod.fst).count rid ≤ 1) := by
  intro fields ids m wk
  rw [synchronize_updates]
  refine ⟨reconcile_fst_sublist fields m ids, fun hnd rid => ?_⟩
  exact List.nodup_iff_count_le_one.mp
    (List.Nodup.sublist (reconcile_fst_sublist fields m ids) hnd) rid

/-- Witness for claim C7 at a concrete input. -/
theorem claim7_witness :
    (((synchronize (fun _ : Nat => ["AUTHOR|(SzGeCERN)389900"]) [2108556]
      [("CERN-389900", "INSPIRE-00146525")] true).updates.map
        Prod.fst).Sublist [2108556]) ∧
    ((synchronize (fun _ : Nat => ["AUTHOR|(SzGeCERN)389900"]) [2108556]
      [("CERN-389900", "INSPIRE-00146525")] true).updates.map
        Prod.fst).count 2108556 ≤ 1 := by
  exact ⟨(claim7_reconcile_order_and_membership _ _ _ _).1,
    (claim7_reconcile_order_and_membership _ _ _ _).2 (by decide) 2108556⟩

/-- Claim C8: when the reconciled update set is empty, `synchronize`
neither writes the payload file nor calls `task_low_level_submission`; and
when the payload write fails, the submission call (inside the same `try`
block, after the write) is never made. -/
theorem claim8_no_submission_on_empty_or_write_failure :
    ∀ (fields : Nat → List String) (record_ids : List Nat) (m : Dict)
      (writeOk : Bool),
      (reconcile fields record_ids m = [] →
        (synchronize fields record_ids m writeOk).wrote = false ∧
        (synchronize fields record_ids m writeOk).submitted = false) ∧
      (writeOk = false →
        (synchronize fields record_ids m writeOk).submitted = false) := by
  intro fields ids m wk
  constructor
  · intro h
    simp [synchronize, h]
  · intro h
    subst h
    simp only [synchronize]
    split <;> simp

/-- Witness for claim C8 at a concrete input. -/
theorem claim8_witness :
    ((synchronize (fun _ : Nat => ([] : List String)) [] [] false).wrote = false ∧
     (synchronize (fun _ : Nat => ([] : List String)) [] [] false).submitted =
       false) ∧
    (synchronize (fun _ : Nat => ([] : List String)) [] [] false).submitted =
      false := by
  exact ⟨(claim8_no_submission_on_empty_or_write_failure (fun _ => []) [] []
      false).1 rfl,
    (claim8_no_submission_on_empty_or_write_failure (fun _ => []) [] []
      false).2 rfl⟩

/-- Claim C9: the pipeline is a pure function of the dump content and the
local-record-store responses; running it a second time in the same
environment — even starting from the destination file left by the first
run — yields the same reconciled update sequence and the same payload file
content, so nothing accumulates between runs. -/
theorem claim9_pipeline_idempotent :
    ∀ (env : RunEnv) (destFile0 : Option String),
      bst_inspire_authority_ids_synchronizer env
        (bst_inspire_authority_ids_synchronizer env destFile0).destFile =
      bst_inspire_authority_ids_synchronizer env destFile0 := by
  intro env fs0
  unfold bst_inspire_authority_ids_synchronizer
  cases hp : parse_inspire_xml (get_inspire_dump env.fetch).result with
  | none => rfl
  | some d =>
    by_cases hd : d = []
    · simp [hd]
    · by_cases hr : env.record_ids = []
      · simp [hd, hr]
      · cases hw : (synchronize env.fields env.record_ids d env.writeOk).wrote <;>
          simp [hd, hr, hw]

/-- Claim C10: the mapping built by `parse_inspire_xml` from a well-formed
dump never contains an entry with an empty key or an empty value, because an
entry is inserted only when both captured identifier strings are truthy. -/
theorem claim10_mapping_entries_nonempty :
    ∀ rs m, parse_inspire_xml (some (RawContent.wellFormed rs)) = some m →
      ∀ k v, (k, v) ∈ m → k ≠ "" ∧ v ≠ "" := by
  intro rs m hm k v hmem
  injection hm with hm
  subst hm
  rcases parseAux_mem rs [] k v hmem with h | ⟨r, _, hre⟩
  · exact absurd h (List.not_mem_nil _)
  · have h' := (recordEntry_eq_some_iff r k v).mp hre
    exact ⟨h'.2.2.2, h'.2.2.1⟩

/-- Witness for claim C10 at a concrete input. -/
theorem claim10_witness :
    ("CERN-389900" : String) ≠ "" ∧ ("INSPIRE-00146525" : String) ≠ "" := by
  exact claim10_mapping_entries_nonempty
    [[Datafield.mk "035" ["CERN"] (some (some "CERN-389900")),
      Datafield.mk "035" ["INSPIRE"] (some (some "INSPIRE-00146525"))]]
    [("CERN-389900", "INSPIRE-00146525")] (by decide)
    "CERN-389900" "INSPIRE-00146525" (by decide)

end InspireSync
